import Mathlib

/-!
Verification development for the PXE-Boot-Deployment repository.

The Python sources are shallowly embedded as executable Lean functions:
  * external commands are modelled by oracles (functions from the command
    arguments to the `(output, exitCode)` pair the command would produce);
  * Python exceptions are modelled with `Except PyErr`;
  * the filesystem / OS resource state touched by `PreparePXEBootFS.py`
    is modelled by an explicit `World` record threaded through the code;
  * wall-clock timeouts of the polling loops are abstracted as a `fuel`
    counter: one unit of fuel is one iteration of the polling loop that
    the deadline still permits.
-/

/-- Python exception values that the embedded code can raise. -/
inductive PyErr where
  | runtimeError (msg : String)
  | valueError (msg : String)
  | zeroDivision
  | indexError
  | fileNotFound (path : String)
deriving DecidableEq

/-! ### Character-level string utilities

The Python code uses `str.split`, `str.strip`, `str.lower`, `in`
(substring test), `str.startswith`, `int(...)` and `str.replace`.  They are
implemented here by structural recursion over the character list so that
all of them evaluate inside the kernel (`decide` / `rfl`). -/

/-- Splits a character list at every character satisfying the predicate and
drops empty pieces: the semantics of the argument-less Python `str.split()`
(with `Char.isWhitespace`) and the whitespace part of `str.strip`. -/
def splitDropAux (p : Char → Bool) : List Char → List Char → List String
  | [], acc => if acc.isEmpty then [] else [String.mk acc.reverse]
  | c :: cs, acc =>
    if p c then
      (if acc.isEmpty then [] else [String.mk acc.reverse]) ++ splitDropAux p cs []
    else
      splitDropAux p cs (c :: acc)

/-- Python `s.split()`: split on whitespace runs, discarding empty fields. -/
def pyWords (s : String) : List String :=
  splitDropAux Char.isWhitespace s.toList []

/-- Splits a character list at every occurrence of the given character,
keeping empty pieces: the semantics of Python `s.split(c)`. -/
def splitKeepAux (sep : Char) : List Char → List Char → List String
  | [], acc => [String.mk acc.reverse]
  | c :: cs, acc =>
    if c = sep then String.mk acc.reverse :: splitKeepAux sep cs []
    else splitKeepAux sep cs (c :: acc)

/-- Python `s.split(c)` for a one-character separator. -/
def pySplitChar (s : String) (sep : Char) : List String :=
  splitKeepAux sep s.toList []

/-- Python `s.strip()`: remove leading and trailing whitespace. -/
def pyStrip (s : String) : String :=
  String.mk (((s.toList.dropWhile Char.isWhitespace).reverse.dropWhile
    Char.isWhitespace).reverse)

/-- Python `s.lower()` (ASCII case folding suffices for the vocabulary the
code compares against). -/
def pyLower (s : String) : String :=
  String.mk (s.toList.map Char.toLower)

/-- Boolean prefix test on character lists. -/
def charPre : List Char → List Char → Bool
  | [], _ => true
  | _ :: _, [] => false
  | a :: as, b :: bs => a == b && charPre as bs

/-- Boolean infix test on character lists. -/
def charInf (pat : List Char) : List Char → Bool
  | [] => pat.isEmpty
  | c :: cs => charPre pat (c :: cs) || charInf pat cs

/-- Python `pat in s` substring containment. -/
def pyContains (s pat : String) : Bool :=
  charInf pat.toList s.toList

/-- Python `s.startswith(pat)`. -/
def pyStarts (s pat : String) : Bool :=
  charPre pat.toList s.toList

/-- Digit-list parser used by `pyToInt`. -/
def digitsToNat : List Char → Option Nat
  | [] => none
  | cs => cs.foldlM (fun acc c => if c.isDigit then some (acc * 10 + (c.toNat - 48)) else none) 0

/-- Python `int(s)`: optional sign, at least one digit, surrounding
whitespace tolerated; `none` models the `ValueError` raise. -/
def pyToInt (s : String) : Option Int :=
  match (pyStrip s).toList with
  | '-' :: cs => (digitsToNat cs).map (fun n => -(n : Int))
  | '+' :: cs => (digitsToNat cs).map (fun n => (n : Int))
  | cs => (digitsToNat cs).map (fun n => (n : Int))

/-- Python `s.replace(c, repl)` for a one-character pattern (the sources only
replace the single character `:`). -/
def pyReplaceChar (s : String) (c : Char) (repl : String) : String :=
  String.mk (s.toList.foldr (fun d acc => if d = c then repl.toList ++ acc else d :: acc) [])

/-! ### BootMonitor: `wait_for_hosts` / `wait_for_ports` (src/utils/Utilities.py)

Both functions run `for host in hosts: if probe(host): hosts.remove(host)`
on the live Python list: the iterator keeps an integer index into the
mutating list, and `list.remove` deletes the first occurrence of the value.
`pingPassF` reproduces this exactly (the fuel argument only bounds the
recursion; `l.length` units always suffice because the index grows on every
step).  The probe outcome is abstracted by an oracle
`reach : Nat → String → Bool` giving the result of probing a host during a
given outer-loop iteration. -/

/-- One pass of `for host in hosts: if cond(host): hosts.remove(host)` on the
live list, starting from iterator index `i`.  Returns the final list and the
list of hosts that were actually probed, in probe order. -/
def pingPassF (cond : String → Bool) : Nat → List String → Nat → List String × List String
  | 0, l, _ => (l, [])
  | fuel + 1, l, i =>
    match l[i]? with
    | none => (l, [])
    | some x =>
      if cond x then
        let r := pingPassF cond fuel (l.erase x) (i + 1)
        (r.1, x :: r.2)
      else
        let r := pingPassF cond fuel l (i + 1)
        (r.1, x :: r.2)

/-- One full iteration of the scanning loop of `wait_for_hosts` /
`wait_for_ports`, from index 0. -/
def pingPass (cond : String → Bool) (l : List String) : List String × List String :=
  pingPassF cond l.length l 0

/-- Polling loop of `wait_for_ports` (src/utils/Utilities.py lines 149-165).
Returns the final value, the final contents of the (mutated in place) host
list, and the trace of probes `(iteration, host)` that were performed.  The
`time.sleep` pacing has no observable effect in this model. -/
def waitPortsGo (reach : Nat → String → Bool) :
    Nat → Nat → List String → Bool × List String × List (Nat × String)
  | 0, _, hosts => (false, hosts, [])
  | fuel + 1, t, hosts =>
    let p := pingPass (reach t) hosts
    if p.1.isEmpty then
      (true, p.1, p.2.map (fun h => (t, h)))
    else
      let r := waitPortsGo reach fuel (t + 1) p.1
      (r.1, r.2.1, p.2.map (fun h => (t, h)) ++ r.2.2)

/-- Embedding of `wait_for_ports`. -/
def wait_for_ports (reach : Nat → String → Bool) (fuel : Nat) (hosts : List String) :
    Bool × List String × List (Nat × String) :=
  waitPortsGo reach fuel 0 hosts

/-- Polling loop of `wait_for_hosts` (src/utils/Utilities.py lines 109-123).
Identical scanning structure, but every iteration first computes
`ping_timeout = interval_sec / len(hosts)`, which raises `ZeroDivisionError`
when the remaining host list is empty; the numeric value of that timeout
only parametrises the ping probe and is absorbed into the `reach` oracle. -/
def waitHostsGo (reach : Nat → String → Bool) :
    Nat → Nat → List String → Except PyErr (Bool × List String × List (Nat × String))
  | 0, _, hosts => .ok (false, hosts, [])
  | fuel + 1, t, hosts =>
    if hosts.isEmpty then .error .zeroDivision
    else
      let p := pingPass (reach t) hosts
      if p.1.isEmpty then
        .ok (true, p.1, p.2.map (fun h => (t, h)))
      else
        match waitHostsGo reach fuel (t + 1) p.1 with
        | .error e => .error e
        | .ok r => .ok (r.1, r.2.1, p.2.map (fun h => (t, h)) ++ r.2.2)

/-- Embedding of `wait_for_hosts`. -/
def wait_for_hosts (reach : Nat → String → Bool) (fuel : Nat) (hosts : List String) :
    Except PyErr (Bool × List String × List (Nat × String)) :=
  waitHostsGo reach fuel 0 hosts

/-! Structural companion of `pingPass` used for the proofs: on a
duplicate-free list the index-based pass is equivalent to this two-speed
walk (removing the element under the iterator shifts the list left, so the
next element is skipped). -/

/-- Structured form of one scanning pass: `(kept, probed)`. -/
def skipPass (cond : String → Bool) : List String → List String × List String
  | [] => ([], [])
  | x :: rest =>
    if cond x then
      match rest with
      | [] => ([], [x])
      | y :: rest2 =>
        let r := skipPass cond rest2
        (y :: r.1, x :: r.2)
    else
      let r := skipPass cond rest
      (x :: r.1, x :: r.2)

/-- When the iterator index is already past the end, the pass stops. -/
theorem pingPassF_past_end (cond : String → Bool) :
    ∀ (fuel : Nat) (l : List String) (i : Nat), l.length ≤ i →
      pingPassF cond fuel l i = (l, []) := by
  intro fuel
  cases fuel with
  | zero => intro l i _; rfl
  | succ n =>
    intro l i h
    have hn : l[i]? = none := List.getElem?_eq_none_iff.mpr h
    simp [pingPassF, hn]

/-- Bridge between the index-based scanning pass and its structural form: on
a duplicate-free list, scanning `done ++ todo` from index `done.length`
leaves `done` untouched and processes `todo` as `skipPass` does. -/
theorem pingPassF_bridge (cond : String → Bool) :
    ∀ (fuel : Nat) (todo done : List String), todo.length ≤ fuel →
      (done ++ todo).Nodup →
      pingPassF cond fuel (done ++ todo) done.length =
        (done ++ (skipPass cond todo).1, (skipPass cond todo).2) := by
  intro fuel
  induction fuel with
  | zero =>
    intro todo done hlen _
    have : todo = [] := List.length_eq_zero.mp (Nat.le_zero.mp hlen)
    subst this
    simp [pingPassF, skipPass]
  | succ n ih =>
    intro todo done hlen hnd
    cases todo with
    | nil =>
      have := pingPassF_past_end cond (n + 1) (done ++ []) done.length (by simp)
      simpa [skipPass] using this
    | cons x rest =>
      have hget : (done ++ x :: rest)[done.length]? = some x := by
        rw [List.getElem?_append_right (Nat.le_refl _)]
        simp
      have hxnotdone : x ∉ done := by
        rcases List.nodup_append.mp hnd with ⟨_, _, hdisj⟩
        intro hx
        exact hdisj hx (by simp)
      by_cases hc : cond x = true
      · -- the probed host answers and is removed; the next element is skipped
        have herase : (done ++ x :: rest).erase x = done ++ rest := by
          rw [List.erase_append_right _ hxnotdone, List.erase_cons_head]
        cases rest with
        | nil =>
          have hend : pingPassF cond n done (done.length + 1) = (done, []) :=
            pingPassF_past_end cond n done (done.length + 1) (Nat.le_succ _)
          simp [pingPassF, hget, hc, herase, hend, skipPass]
        | cons y rest2 =>
          have hassoc : done ++ y :: rest2 = (done ++ [y]) ++ rest2 := by simp
          have hlen2 : rest2.length ≤ n := by
            simp only [List.length_cons] at hlen; omega
          have hnd2 : ((done ++ [y]) ++ rest2).Nodup := by
            have hsub : List.Sublist (done ++ y :: rest2) (done ++ x :: y :: rest2) :=
              (List.append_sublist_append_left done).mpr
                (List.sublist_cons_self x (y :: rest2))
            have := List.Sublist.nodup hsub hnd
            simpa using this
          have hidx : done.length + 1 = (done ++ [y]).length := by simp
          have ihx := ih rest2 (done ++ [y]) hlen2 hnd2
          simp only [pingPassF, hget, hc, if_true, herase, skipPass]
          rw [hassoc, hidx, ihx]
          simp
      · have hassoc : done ++ x :: rest = (done ++ [x]) ++ rest := by
          simp
        have hlen2 : rest.length ≤ n := by
          simp only [List.length_cons] at hlen; omega
        have hnd2 : ((done ++ [x]) ++ rest).Nodup := by simpa using hnd
        have hidx : done.length + 1 = (done ++ [x]).length := by simp
        have ihx := ih rest (done ++ [x]) hlen2 hnd2
        simp only [pingPassF, hget, hc, if_false]
        rw [hassoc, hidx, ihx]
        cases rest with
        | nil => simp [skipPass, hc]
        | cons y rest2 => simp [skipPass, hc]

/-- On a duplicate-free list a full scanning pass equals its structural
form. -/
theorem pingPass_eq_skipPass (cond : String → Bool) (l : List String)
    (hnd : l.Nodup) : pingPass cond l = skipPass cond l := by
  have := pingPassF_bridge cond l.length l [] (Nat.le_refl _) (by simpa using hnd)
  simpa [pingPass] using this

/-- The hosts kept by a scanning pass form a subsequence of the input list:
hosts are only ever removed, never added or reordered. -/
theorem skipPass_kept_sublist (cond : String → Bool) :
    (l : List String) → List.Sublist (skipPass cond l).1 l
  | [] => by simp [skipPass]
  | [x] => by
    by_cases hc : cond x = true <;> simp [skipPass, hc]
  | x :: y :: rest2 => by
    by_cases hc : cond x = true
    · have ih := skipPass_kept_sublist cond rest2
      simp only [skipPass, hc, if_true]
      exact List.Sublist.cons x (List.Sublist.cons₂ y ih)
    · have ih := skipPass_kept_sublist cond (y :: rest2)
      simp only [skipPass, hc, if_false]
      exact List.Sublist.cons₂ x ih

/-- The hosts probed during a scanning pass form a subsequence of the input
list. -/
theorem skipPass_probed_sublist (cond : String → Bool) :
    (l : List String) → List.Sublist (skipPass cond l).2 l
  | [] => by simp [skipPass]
  | [x] => by
    by_cases hc : cond x = true <;> simp [skipPass, hc]
  | x :: y :: rest2 => by
    by_cases hc : cond x = true
    · have ih := skipPass_probed_sublist cond rest2
      simp only [skipPass, hc, if_true]
      exact List.Sublist.cons₂ x (List.Sublist.cons y ih)
    · have ih := skipPass_probed_sublist cond (y :: rest2)
      simp only [skipPass, hc, if_false]
      exact List.Sublist.cons₂ x ih

/-- Characterisation of the hosts kept by one scanning pass of a
duplicate-free list: a host stays pending unless it was probed during the
pass and the probe succeeded. -/
theorem skipPass_mem_kept (cond : String → Bool) :
    (l : List String) → l.Nodup → ∀ h : String,
      (h ∈ (skipPass cond l).1 ↔
        h ∈ l ∧ ¬(cond h = true ∧ h ∈ (skipPass cond l).2))
  | [], _, h => by simp [skipPass]
  | [x], _, h => by
    by_cases hc : cond x = true
    · by_cases hx : h = x
      · subst hx; simp [skipPass, hc]
      · simp [skipPass, hc, hx]
    · by_cases hx : h = x
      · subst hx; simp [skipPass, hc]
      · simp [skipPass, hc, hx]
  | x :: y :: rest2, hnd, h => by
    have hxny : x ∉ y :: rest2 := (List.nodup_cons.mp hnd).1
    have hnd1 : (y :: rest2).Nodup := (List.nodup_cons.mp hnd).2
    have hynr : y ∉ rest2 := (List.nodup_cons.mp hnd1).1
    have hnd2 : rest2.Nodup := (List.nodup_cons.mp hnd1).2
    by_cases hc : cond x = true
    · have ih := skipPass_mem_kept cond rest2 hnd2 h
      have hpp := skipPass_probed_sublist cond rest2
      have hyp : y ∉ (skipPass cond rest2).2 := fun hm => hynr (hpp.mem hm)
      have hsk : skipPass cond (x :: y :: rest2) =
          (y :: (skipPass cond rest2).1, x :: (skipPass cond rest2).2) := by
        simp [skipPass, hc]
      rw [hsk]
      simp only [List.mem_cons]
      constructor
      · rintro (rfl | hk)
        · refine ⟨Or.inr (Or.inl rfl), ?_⟩
          rintro ⟨hch, hmem⟩
          rcases hmem with rfl | hp
          · exact hxny (List.mem_cons_self _ _)
          · exact hyp hp
        · rcases ih.mp hk with ⟨hr, hnp⟩
          refine ⟨Or.inr (Or.inr hr), ?_⟩
          rintro ⟨hch, hmem⟩
          rcases hmem with rfl | hp
          · exact hxny (List.mem_cons_of_mem y hr)
          · exact hnp ⟨hch, hp⟩
      · rintro ⟨hmem, hn⟩
        rcases hmem with rfl | rfl | hr
        · exact absurd ⟨hc, Or.inl rfl⟩ hn
        · exact Or.inl rfl
        · exact Or.inr (ih.mpr ⟨hr, fun hcp => hn ⟨hcp.1, Or.inr hcp.2⟩⟩)
    · have ih := skipPass_mem_kept cond (y :: rest2) hnd1 h
      have hsk : skipPass cond (x :: y :: rest2) =
          (x :: (skipPass cond (y :: rest2)).1, x :: (skipPass cond (y :: rest2)).2) := by
        simp [skipPass, hc]
      rw [hsk]
      simp only [List.mem_cons]
      constructor
      · rintro (rfl | hk)
        · exact ⟨Or.inl rfl, fun hcp => hc hcp.1⟩
        · rcases ih.mp hk with ⟨hyr, hnp⟩
          refine ⟨Or.inr (List.mem_cons.mp hyr), ?_⟩
          rintro ⟨hch, hmem⟩
          rcases hmem with rfl | hp
          · exact hc hch
          · exact hnp ⟨hch, hp⟩
      · rintro ⟨hmem, hn⟩
        rcases hmem with rfl | hyr
        · exact Or.inl rfl
        · exact Or.inr
            (ih.mpr ⟨List.mem_cons.mpr hyr, fun hcp => hn ⟨hcp.1, Or.inr hcp.2⟩⟩)

/-- Across the whole polling loop the pending list only loses hosts: the
final list is a subsequence of the input list (a removed host is never
re-added). -/
theorem waitPortsGo_sublist (reach : Nat → String → Bool) :
    ∀ (fuel t : Nat) (hosts : List String), hosts.Nodup →
      List.Sublist (waitPortsGo reach fuel t hosts).2.1 hosts := by
  intro fuel
  induction fuel with
  | zero =>
    intro t hosts _
    simp [waitPortsGo]
  | succ n ih =>
    intro t hosts hnd
    have hpk : List.Sublist (pingPass (reach t) hosts).1 hosts := by
      rw [pingPass_eq_skipPass _ _ hnd]
      exact skipPass_kept_sublist _ _
    cases he : (pingPass (reach t) hosts).1.isEmpty with
    | true =>
      simp only [waitPortsGo, he, if_true]
      exact hpk
    | false =>
      have hnd2 : (pingPass (reach t) hosts).1.Nodup := hpk.nodup hnd
      have hrec := ih (t + 1) (pingPass (reach t) hosts).1 hnd2
      simp only [waitPortsGo, he, Bool.false_eq_true, if_false]
      exact hrec.trans hpk

/-- The ports-waiting loop answers true exactly when the pending list was
emptied (for a non-empty initial list). -/
theorem waitPortsGo_true_iff (reach : Nat → String → Bool) :
    ∀ (fuel t : Nat) (hosts : List String), hosts ≠ [] →
      ((waitPortsGo reach fuel t hosts).1 = true ↔
        (waitPortsGo reach fuel t hosts).2.1 = []) := by
  intro fuel
  induction fuel with
  | zero =>
    intro t hosts hne
    simp [waitPortsGo, hne]
  | succ n ih =>
    intro t hosts hne
    cases he : (pingPass (reach t) hosts).1.isEmpty with
    | true =>
      simp only [waitPortsGo, he, if_true]
      simpa using (List.isEmpty_iff.mp he)
    | false =>
      have hne2 : (pingPass (reach t) hosts).1 ≠ [] := by
        intro hnil
        rw [hnil] at he
        simp at he
      have hrec := ih (t + 1) (pingPass (reach t) hosts).1 hne2
      simp only [waitPortsGo, he, Bool.false_eq_true, if_false]
      exact hrec

/-- The hosts-waiting loop is the ports-waiting loop whenever the pending
list is non-empty (the division `interval_sec / len(hosts)` cannot raise). -/
theorem waitHostsGo_eq_ports (reach : Nat → String → Bool) :
    ∀ (fuel t : Nat) (hosts : List String), hosts ≠ [] →
      waitHostsGo reach fuel t hosts = .ok (waitPortsGo reach fuel t hosts) := by
  intro fuel
  induction fuel with
  | zero =>
    intro t hosts _
    simp [waitHostsGo, waitPortsGo]
  | succ n ih =>
    intro t hosts hne
    have hie : hosts.isEmpty = false := by
      cases hosts with
      | nil => exact absurd rfl hne
      | cons a l => rfl
    cases he : (pingPass (reach t) hosts).1.isEmpty with
    | true =>
      simp [waitHostsGo, waitPortsGo, hie, he]
    | false =>
      have hne2 : (pingPass (reach t) hosts).1 ≠ [] := by
        intro hnil
        rw [hnil] at he
        simp at he
      have hrec := ih (t + 1) (pingPass (reach t) hosts).1 hne2
      simp [waitHostsGo, waitPortsGo, hie, he, hrec]

/-- Characterisation of the final pending list: a host of a duplicate-free
input list is still pending at the end exactly when none of its performed
probes succeeded. -/
theorem waitPortsGo_mem (reach : Nat → String → Bool) :
    ∀ (fuel t : Nat) (hosts : List String), hosts.Nodup → ∀ h : String,
      (h ∈ (waitPortsGo reach fuel t hosts).2.1 ↔
        h ∈ hosts ∧ ∀ q ∈ (waitPortsGo reach fuel t hosts).2.2,
          q.2 = h → reach q.1 h = false) := by
  intro fuel
  induction fuel with
  | zero =>
    intro t hosts _ h
    simp [waitPortsGo]
  | succ n ih =>
    intro t hosts hnd h
    have hps := pingPass_eq_skipPass (reach t) hosts hnd
    have hkchar := skipPass_mem_kept (reach t) hosts hnd h
    cases he : (pingPass (reach t) hosts).1.isEmpty with
    | true =>
      have hkeq : (skipPass (reach t) hosts).1 = [] := by
        rw [← hps]
        exact List.isEmpty_iff.mp he
      simp only [waitPortsGo, he, if_true]
      have hnil : (pingPass (reach t) hosts).1 = [] := List.isEmpty_iff.mp he
      rw [hnil]
      simp only [List.not_mem_nil, false_iff, List.mem_map]
      rintro ⟨hmem, hall⟩
      have hnk : h ∉ (skipPass (reach t) hosts).1 := by
        rw [hkeq]; exact List.not_mem_nil h
      have := (not_iff_not.mpr hkchar).mp hnk
      rcases not_and_or.mp this with hcon | hcon
      · exact hcon hmem
      · have hcp := not_not.mp hcon
        have hp2 : h ∈ (pingPass (reach t) hosts).2 := by
          rw [hps]
          exact hcp.2
        have hfalse := hall (t, h) ⟨h, hp2, rfl⟩ rfl
        rw [hfalse] at hcp
        exact absurd hcp.1 (by simp)
    | false =>
      have hpkN : (pingPass (reach t) hosts).1.Nodup := by
        have : List.Sublist (pingPass (reach t) hosts).1 hosts := by
          rw [hps]; exact skipPass_kept_sublist _ _
        exact this.nodup hnd
      have hrec := ih (t + 1) (pingPass (reach t) hosts).1 hpkN h
      simp only [waitPortsGo, he, Bool.false_eq_true, if_false]
      rw [hrec, hps, hkchar]
      constructor
      · rintro ⟨⟨hmem, hnp⟩, hall⟩
        refine ⟨hmem, ?_⟩
        intro q hq hqh
        rcases List.mem_append.mp hq with hq1 | hq2
        · rcases List.mem_map.mp hq1 with ⟨x, hx, rfl⟩
          have hxh : x = h := hqh
          rw [hxh] at hx
          show reach t h = false
          cases hre : reach t h with
          | false => rfl
          | true => exact absurd ⟨hre, hx⟩ hnp
        · exact hall q hq2 hqh
      · rintro ⟨hmem, hall⟩
        have hnp : ¬(reach t h = true ∧ h ∈ (skipPass (reach t) hosts).2) := by
          rintro ⟨hre, hp⟩
          have := hall (t, h) (List.mem_append.mpr (Or.inl (List.mem_map.mpr ⟨h, hp, rfl⟩))) rfl
          rw [this] at hre
          exact absurd hre (by simp)
        refine ⟨⟨hmem, hnp⟩, ?_⟩
        intro q hq hqh
        exact hall q (List.mem_append.mpr (Or.inr hq)) hqh

/-! ### Router: `POEPort` and `MikroTikClient` (src/router/)

`ICommandRunner.exec` is modelled as a pure oracle mapping the command
string to the `(output, exitCode)` pair it returns.  The commands issued
by the client are distinct strings, so a deterministic oracle captures
every behaviour the claims are about. -/

/-- Result type of `ICommandRunner.exec`. -/
abbrev CommandExec := String → String × Int

/-- Enum `POEPort.Power` with its wire vocabulary. -/
inductive Power where
  | Off
  | On
  | ForcedON
deriving DecidableEq

/-- Wire value of a power state (the Python enum member value). -/
def Power.value : Power → String
  | .Off => "off"
  | .On => "auto-on"
  | .ForcedON => "forced-on"

/-- Embedding of `POEPort.Power.from_string`: scan the enum members in
declaration order, raise `ValueError` on an unknown token. -/
def Power.from_string (v : String) : Except PyErr Power :=
  if v = "off" then .ok .Off
  else if v = "auto-on" then .ok .On
  else if v = "forced-on" then .ok .ForcedON
  else .error (.valueError ("Value " ++ v ++ " is unsupported"))

/-- Enum `POEPort.Voltage`. -/
inductive Voltage where
  | Auto
  | Low
  | High
deriving DecidableEq

/-- Embedding of `POEPort.Voltage.from_string`. -/
def Voltage.from_string (v : String) : Except PyErr Voltage :=
  if v = "auto" then .ok .Auto
  else if v = "low" then .ok .Low
  else if v = "high" then .ok .High
  else .error (.valueError ("Value " ++ v ++ " is unsupported"))

/-- Embedding of `POEPort.str_to_bool`. -/
def str_to_bool (value : String) : Except PyErr Bool :=
  if ["1", "yes", "true", "enabled", "y"].contains (pyLower value) then .ok true
  else if ["0", "n", "no", "none", "false", "disabled"].contains (pyLower value) then .ok false
  else .error (.valueError ("Can not cast from String " ++ value ++ " to the Boolean type"))

/-- Embedding of `POEPort.cast_to_int` on the string field the parser feeds
it (`int(value)` raises `ValueError` on a malformed literal). -/
def cast_to_int (value : String) : Except PyErr Int :=
  match pyToInt value with
  | some n => .ok n
  | none => .error (.valueError ("invalid literal for int: " ++ value))

/-- Record `POEPort` (src/router/POEPort.py): the fields filled in by the
constructor and by `parse_interface_ethernet_poe_cmd`. -/
structure POEPort where
  name : String
  state : Power := .Off
  voltage : Voltage := .Auto
  priority : Int := 0
  lldp_enabled : Bool := false
  cycle_ping_enabled : Bool := false
  power_cycle_interval : String := "none"
deriving DecidableEq

/-- Row loop of `MikroTikClient.parse_interface_ethernet_poe_cmd`: skip
header lines and lines that do not tokenize into exactly 8 fields; a
malformed field value raises out of the whole parse. -/
def parsePoeLines : List String → Except PyErr (List POEPort)
  | [] => .ok []
  | line :: rest =>
    if pyStarts line "#" || pyStarts line "Columns" then parsePoeLines rest
    else
      match pyWords line with
      | [_, p1, p2, p3, p4, p5, p6, _] => do
        let st ← Power.from_string p2
        let vo ← Voltage.from_string p3
        let pr ← cast_to_int p4
        let ll ← str_to_bool p5
        let cp ← str_to_bool p6
        let ports ← parsePoeLines rest
        .ok ({ name := p1, state := st, voltage := vo, priority := pr,
               lldp_enabled := ll, cycle_ping_enabled := cp } :: ports)
      | _ => parsePoeLines rest

/-- Embedding of `MikroTikClient.parse_interface_ethernet_poe_cmd`: split
the router output into lines, drop raw lines that are empty or contain the
comment marker, strip the rest, then run the row loop. -/
def parse_interface_ethernet_poe_cmd (output : String) : Except PyErr (List POEPort) :=
  parsePoeLines
    (((pySplitChar output '\n').filter
      (fun ln => ln ≠ "" && !(pyContains ln ";;;"))).map pyStrip)

/-- Embedding of `MikroTikClient.get_poe_ports`: a non-zero exit status of
the print command yields the empty list (not an error). -/
def get_poe_ports (run : CommandExec) : Except PyErr (List POEPort) :=
  let r := run "interface ethernet poe print without-paging"
  if r.2 ≠ 0 then .ok []
  else parse_interface_ethernet_poe_cmd r.1

/-- Embedding of `MikroTikClient.set_poe_port_power`: true iff the set
command exits with status 0. -/
def set_poe_port_power (run : CommandExec) (port_name : String) (st : Power) : Bool :=
  (run ("interface ethernet poe set " ++ port_name ++ " poe-out=" ++ st.value)).2 == 0

/-! ### Deployment: `switch_comms_sleeves_power` (src/deployment/Deployment.py) -/

/-- Node descriptor `CSLNode` (src/common/CSLNode.py). -/
structure CSLNode where
  hostname : String
  ip_address : String
  mac_address : String
  username : String
  password : String
  port : Int
  router_port_link : Int
  nfs_folder_name : Option String := none
deriving DecidableEq

/-- Port name targeted for a node: `ether{node.router_port_link}`. -/
def ether_name (node : CSLNode) : String :=
  "ether" ++ toString node.router_port_link

/-- Embedding of `Deployment.switch_comms_sleeves_power`.  The per-port set
loop returns false at the first failing set command; with a deterministic
command oracle this is equivalent to requiring every set command to
succeed.  After the sets, one query is made: an empty result is a failure,
and otherwise any reported port that is targeted but not in the requested
state fails the call. -/
def switch_comms_sleeves_power (run : CommandExec) (csl_list : List CSLNode)
    (st : Power) : Except PyErr Bool :=
  let ports_names := csl_list.map ether_name
  if ports_names.all (fun nm => set_poe_port_power run nm st) then
    match get_poe_ports run with
    | .error e => .error e
    | .ok ports =>
      if ports.isEmpty then .ok false
      else .ok (ports.all (fun p => !(ports_names.contains p.name && !(p.state == st))))
  else .ok false

/-! ### ImageUnpacker world model (src/deployment/PreparePXEBootFS.py)

The OS resources touched by `unpack_image` are tracked explicitly: the
`World` holds the stack of currently acquired resources, an event trace of
every acquisition and release that actually happened (a release event is
recorded exactly when the corresponding release command succeeds), and the
line contents of the files the configurator touches.  The behaviour of
each external command is an oracle in `Env`; the `World` updates encode
the effect the successful command has on the OS. -/

/-- An OS resource acquired by `unpack_image`: the stopped NFS service, an
attached loop device, or a mounted mount point. -/
inductive Res where
  | nfs
  | loopdev (name : String)
  | mnt (mountPoint : String)
deriving DecidableEq

/-- Acquisition / release events, in the order they happened. -/
inductive Event where
  | acq (r : Res)
  | rel (r : Res)
deriving DecidableEq

/-- State threaded through the embedded `PreparePXEBootFS` code. -/
structure World where
  held : List Res
  trace : List Event
  files : String → Option (List String)

/-- Records a successful acquisition command. -/
def opAcquire (r : Res) (w : World) : World :=
  { w with held := r :: w.held, trace := w.trace ++ [Event.acq r] }

/-- Records a successful release command. -/
def opRelease (r : Res) (w : World) : World :=
  { w with held := w.held.erase r, trace := w.trace ++ [Event.rel r] }

/-- Stack interpreter for the event trace: an acquisition pushes, a release
must match the most recently acquired live resource; `none` flags a release
out of reverse-acquisition order. -/
def bracketRun : List Res → List Event → Option (List Res)
  | stack, [] => some stack
  | stack, .acq r :: es => bracketRun (r :: stack) es
  | stack, .rel r :: es =>
    match stack with
    | [] => none
    | s :: rest => if r = s then bracketRun rest es else none

/-- Behaviour of the external commands run by `PreparePXEBootFS.py`, as
`(output, exitCode)` oracles of the command arguments. -/
structure Env where
  imgExists : Bool
  serviceStop : String × Int
  serviceStart : String × Int
  rmrfCmd : String → String × Int
  losetupShow : String → String × Int
  losetupDetach : String → String × Int
  mountRo : String → String → String × Int
  umountCmd : String → String × Int
  cpCmd : String → String → String × Int
  lnCmd : String → String → String × Int

/-- Configuration slice of `ImageWrapper.__init__`. -/
structure ImageWrapper where
  pxe_fs_root : String
  img_path : String
  server_ip_address : String

/-- Name of the `tempfile.TemporaryDirectory` scratch directory (its actual
name is irrelevant to every claim; creation and removal have no modelled
effect). -/
def tmpDirName : String := "tmp"

/-- Embedding of `str(Path(p).parent)`: drop the last `/`-separated
component. -/
def pyParent (p : String) : String :=
  String.intercalate "/" (pySplitChar p '/').dropLast

/-- Embedding of `ImageWrapper.LoopContext.__enter__`: `losetup --show -fP`
attaches the image whenever it produces output; an empty output raises
before anything was attached, and `output.split()[0]` on whitespace-only
output raises `IndexError` after the attachment. -/
def LoopContext_enter (env : Env) (file_path : String) (w : World) :
    Except PyErr String × World :=
  let r := env.losetupShow file_path
  if r.1 = "" then
    (.error (.runtimeError ("Failed to create loop devices for " ++ file_path)), w)
  else
    let w1 := opAcquire (Res.loopdev ((pyWords r.1).headD "")) w
    match pyWords r.1 with
    | [] => (.error .indexError, w1)
    | name :: _ => (.ok name, w1)

/-- Embedding of `ImageWrapper.LoopContext.__exit__`. -/
def LoopContext_exit (env : Env) (loop : String) (w : World) :
    Except PyErr Unit × World :=
  let r := env.losetupDetach loop
  if r.2 ≠ 0 then
    (.error (.runtimeError ("Failed to close loop devices. Status = " ++ toString r.2)), w)
  else (.ok (), opRelease (Res.loopdev loop) w)

/-- Embedding of `ImageWrapper.MountContext.__enter__`. -/
def MountContext_enter (env : Env) (device mount_point : String) (w : World) :
    Except PyErr Unit × World :=
  let r := env.mountRo device mount_point
  if r.2 ≠ 0 then
    (.error (.runtimeError ("Failed to mount device " ++ device)), w)
  else (.ok (), opAcquire (Res.mnt mount_point) w)

/-- Embedding of `ImageWrapper.MountContext.__exit__`. -/
def MountContext_exit (env : Env) (mount_point : String) (w : World) :
    Except PyErr Unit × World :=
  let r := env.umountCmd mount_point
  if r.2 ≠ 0 then
    (.error (.runtimeError ("Failed to umount " ++ mount_point)), w)
  else (.ok (), opRelease (Res.mnt mount_point) w)

/-- Embedding of `ImageWrapper.NFSServiceContext.__enter__` (the service is
stopped exactly when the stop command succeeds). -/
def NFSContext_enter (env : Env) (w : World) : Except PyErr Unit × World :=
  if env.serviceStop.2 ≠ 0 then
    (.error (.runtimeError "Failed to stop nfs-kernel-server service"), w)
  else (.ok (), opAcquire Res.nfs w)

/-- Embedding of `ImageWrapper.NFSServiceContext.__exit__`. -/
def NFSContext_exit (env : Env) (w : World) : Except PyErr Unit × World :=
  if env.serviceStart.2 ≠ 0 then
    (.error (.runtimeError "Failed to start nfs-kernel-server service"), w)
  else (.ok (), opRelease Res.nfs w)

/-- Embedding of `ImageWrapper.copy_partition` (`mkdir` and `cp -ar` do not
touch the tracked resources). -/
def copy_partition (env : Env) (src_dir dst_dir : String) : Bool :=
  (env.cpCmd src_dir dst_dir).2 == 0

/-- Body of one `with MountContext(...)` block of `unpack_image`: mount,
copy, unmount.  `.ok (some false)` encodes the early `return False` of a
failed copy; `.ok none` means the block fell through.  The `__exit__`
unmount runs on every exit path of the block body. -/
def mount_and_copy (env : Env) (device target : String) (w : World) :
    Except PyErr (Option Bool) × World :=
  let me := MountContext_enter env device tmpDirName w
  match me.1 with
  | .error e => (.error e, me.2)
  | .ok _ =>
    let body : Except PyErr (Option Bool) :=
      if copy_partition env tmpDirName target then .ok none else .ok (some false)
    let mx := MountContext_exit env tmpDirName me.2
    match mx.1 with
    | .error e => (.error e, mx.2)
    | .ok _ => (body, mx.2)

/-- Body of the `with LoopContext(...)` block: the two partition blocks in
sequence, with the early `return False` of the first one short-circuiting
the second. -/
def loop_body (env : Env) (loop boot_dir root_dir : String) (w : World) :
    Except PyErr (Option Bool) × World :=
  let r1 := mount_and_copy env (loop ++ "p1") boot_dir w
  match r1.1 with
  | .error e => (.error e, r1.2)
  | .ok (some b) => (.ok (some b), r1.2)
  | .ok none => mount_and_copy env (loop ++ "p2") root_dir r1.2

/-- Body of the `with NFSServiceContext(...)` block of `unpack_image`:
remove the old per-node tree, then attach the loop device and copy both
partitions; the `__exit__` detach runs on every exit path of the block. -/
def unpack_body (env : Env) (iw : ImageWrapper) (boot_dir root_dir : String)
    (w : World) : Except PyErr (Option Bool) × World :=
  if (env.rmrfCmd (pyParent boot_dir)).2 ≠ 0 then (.ok (some false), w)
  else
    let le := LoopContext_enter env iw.img_path w
    match le.1 with
    | .error e => (.error e, le.2)
    | .ok loop =>
      let inner := loop_body env loop boot_dir root_dir le.2
      let lex := LoopContext_exit env loop inner.2
      match lex.1 with
      | .error e => (.error e, lex.2)
      | .ok _ => (inner.1, lex.2)

/-- Embedding of `ImageWrapper.unpack_image`.  A missing image raises; the
NFS stop/start context brackets everything; falling through every block
reaches the final `return True`. -/
def unpack_image (env : Env) (iw : ImageWrapper) (boot_dir root_dir : String)
    (w : World) : Except PyErr Bool × World :=
  if !env.imgExists then
    (.error (.runtimeError ("Image file " ++ iw.img_path ++ " do not exists")), w)
  else
    let en := NFSContext_enter env w
    match en.1 with
    | .error e => (.error e, en.2)
    | .ok _ =>
      let body := unpack_body env iw boot_dir root_dir en.2
      let ex := NFSContext_exit env body.2
      match ex.1 with
      | .error e => (.error e, ex.2)
      | .ok _ =>
        match body.1 with
        | .error e => (.error e, ex.2)
        | .ok none => (.ok true, ex.2)
        | .ok (some b) => (.ok b, ex.2)

/-! ### FilesystemConfigurator (src/deployment/PreparePXEBootFS.py) -/

/-- Embedding of `FileUtilities.read_file_lines`: raises if the file does
not exist, otherwise yields the newline-stripped lines. -/
def read_file_lines (w : World) (path : String) : Except PyErr (List String) :=
  match w.files path with
  | none => .error (.fileNotFound path)
  | some lines => .ok lines

/-- Embedding of `FileUtilities.write_lines_to_file` (mode `w`: the file is
created or fully overwritten). -/
def write_lines_to_file (w : World) (path : String) (lines : List String) : World :=
  { w with files := fun p => if p = path then some lines else w.files p }

/-- First index at which the predicate holds, mirroring the
`root_idx = -1` sentinel loop of `modify_fstab_file` (`none` is `-1`). -/
def pyFindIdx (p : String → Bool) : List String → Option Nat
  | [] => none
  | x :: xs => if p x then some 0 else (pyFindIdx p xs).map (· + 1)

/-- The root-mount test of `modify_fstab_file`: the line tokenizes into
more than one field and the second field is exactly `/`. -/
def isRootLine (line : String) : Bool :=
  (pyWords line)[1]? == some "/"

/-- Replacement line written by `modify_fstab_file`. -/
def nfsBootLine (ip_address boot_dir : String) : String :=
  ip_address ++ ":" ++ boot_dir ++ " /boot nfs defaults,vers=4.1,tcp 0 0"

/-- Line-level core of `ImageWrapper.modify_fstab_file`: the flag says
whether a write happens; the list is the resulting file content. -/
def modify_fstab_lines (boot_dir ip_address : String) (lines : List String) :
    Bool × List String :=
  if lines.isEmpty then (false, lines)
  else
    match pyFindIdx isRootLine lines with
    | none => (false, lines)
    | some i => (true, lines.set i (nfsBootLine ip_address boot_dir))

/-- Embedding of `ImageWrapper.modify_fstab_file`: read the fstab, replace
the first root-mount line, and write back only in that case. -/
def modify_fstab_file (boot_dir fstab_path ip_address : String) (w : World) :
    Except PyErr Bool × World :=
  match read_file_lines w fstab_path with
  | .error e => (.error e, w)
  | .ok lines =>
    let r := modify_fstab_lines boot_dir ip_address lines
    if r.1 then (.ok true, write_lines_to_file w fstab_path r.2)
    else (.ok false, w)

/-- The fixed replacement table of `modify_sshd_config`. -/
def sshdReplacements : List (String × String) :=
  [("PermitRootLogin", "PermitRootLogin yes"),
   ("PasswordAuthentication", "PasswordAuthentication yes"),
   ("/etc/ssh/ssh_host_rsa_key", "HostKey /etc/ssh/ssh_host_rsa_key")]

/-- Per-line transformation of `modify_sshd_config`: each replacement whose
key occurs in the ORIGINAL line overwrites the accumulated value, so the
last matching entry of the table wins. -/
def sshdTransformLine (line : String) : String :=
  sshdReplacements.foldl
    (fun cur pr => if pyContains line pr.1 then pr.2 else cur) line

/-- Line-level core of `ImageWrapper.modify_sshd_config`. -/
def modify_sshd_lines (lines : List String) : Bool × List String :=
  if lines.isEmpty then (false, lines)
  else (true, lines.map sshdTransformLine)

/-- Embedding of `ImageWrapper.modify_sshd_config`. -/
def modify_sshd_config (ssh_config_path : String) (w : World) :
    Except PyErr Bool × World :=
  match read_file_lines w ssh_config_path with
  | .error e => (.error e, w)
  | .ok lines =>
    let r := modify_sshd_lines lines
    if r.1 then (.ok true, write_lines_to_file w ssh_config_path r.2)
    else (.ok false, w)

/-- The fixed kernel command line written by `modify_cmdline_file`. -/
def cmdlineLine (root_dir ip_address : String) : String :=
  "rootwait console=tty1 console=ttyS0,115200 pcie_aspm=off selinux=1 enforcing=0 " ++
    "ip=dhcp root=/dev/nfs nfsroot=" ++ ip_address ++ ":" ++ root_dir ++ ",vers=4.1,proto=tcp"

/-- Line-level core of `ImageWrapper.modify_cmdline_file`: the file content
is unconditionally replaced. -/
def modify_cmdline_lines (root_dir ip_address : String) (_lines : List String) :
    Bool × List String :=
  (true, [cmdlineLine root_dir ip_address])

/-- Embedding of `ImageWrapper.modify_cmdline_file` (an overwrite-mode
`open` never raises in this model: the file need not exist). -/
def modify_cmdline_file (root_dir cmdline_path ip_address : String) (w : World) :
    Except PyErr Bool × World :=
  (.ok true, write_lines_to_file w cmdline_path [cmdlineLine root_dir ip_address])

/-- Line-level core of `ImageWrapper.set_cls_hostname`. -/
def set_hostname_lines (hostname : String) (_lines : List String) : List String :=
  [hostname]

/-- Embedding of `ImageWrapper.set_cls_hostname`. -/
def set_cls_hostname (hostname_file_path hostname : String) (w : World) : World :=
  write_lines_to_file w hostname_file_path [hostname]

/-- Embedding of `ImageWrapper.configure_csl_filesystem`: the four
sub-operations in source order; their boolean results are ignored, only a
raise (missing file) aborts the sequence. -/
def configure_csl_filesystem (boot_dir root_dir server_ip_address _csl_ip_addr
    csl_hostname : String) (w : World) : Except PyErr Unit × World :=
  let r1 := modify_sshd_config (root_dir ++ "/etc/ssh/sshd_config") w
  match r1.1 with
  | .error e => (.error e, r1.2)
  | .ok _ =>
    let r2 := modify_fstab_file boot_dir (root_dir ++ "/etc/fstab") server_ip_address r1.2
    match r2.1 with
    | .error e => (.error e, r2.2)
    | .ok _ =>
      let r3 := modify_cmdline_file root_dir (boot_dir ++ "/" ++ "cmdline.txt")
        server_ip_address r2.2
      match r3.1 with
      | .error e => (.error e, r3.2)
      | .ok _ =>
        (.ok (), set_cls_hostname (root_dir ++ "/" ++ "/etc/hostname") csl_hostname r3.2)

/-- Embedding of `ImageWrapper.create_tftp_boot_symlink`. -/
def create_tftp_boot_symlink (env : Env) (boot_dir csl_tftp_boot_dir : String) : Bool :=
  (env.lnCmd (boot_dir ++ "/") csl_tftp_boot_dir).2 == 0

/-- NFS directory name for a node: the explicit override when it is a
non-empty string (Python truthiness), else the colon-stripped MAC. -/
def nfs_dir_name (node : CSLNode) : String :=
  match node.nfs_folder_name with
  | some s => if s = "" then pyReplaceChar node.mac_address ':' "" else s
  | none => pyReplaceChar node.mac_address ':' ""

/-- Per-node boot directory `{fsRoot}/{nfsDirName}/boot`. -/
def boot_dir_of (iw : ImageWrapper) (node : CSLNode) : String :=
  iw.pxe_fs_root ++ "/" ++ nfs_dir_name node ++ "/" ++ "boot"

/-- Per-node root directory `{fsRoot}/{nfsDirName}/rootfs`. -/
def root_dir_of (iw : ImageWrapper) (node : CSLNode) : String :=
  iw.pxe_fs_root ++ "/" ++ nfs_dir_name node ++ "/" ++ "rootfs"

/-- Per-node TFTP boot directory `{fsRoot}/tftpboot/{MAC-with-hyphens}`. -/
def tftp_dir_of (iw : ImageWrapper) (node : CSLNode) : String :=
  iw.pxe_fs_root ++ "/" ++ "tftpboot" ++ "/" ++ pyReplaceChar node.mac_address ':' "-"

/-- Embedding of `ImageWrapper.prepare_pxe_boot_configuration`: unpack,
configure, create the TFTP symlink — and finally `return False` even on the
all-success path (the literal last statement of the Python method). -/
def prepare_pxe_boot_configuration (iw : ImageWrapper) (env : Env) (node : CSLNode)
    (w : World) : Except PyErr Bool × World :=
  let u := unpack_image env iw (boot_dir_of iw node) (root_dir_of iw node) w
  match u.1 with
  | .error e => (.error e, u.2)
  | .ok false => (.ok false, u.2)
  | .ok true =>
    let c := configure_csl_filesystem (boot_dir_of iw node) (root_dir_of iw node)
      iw.server_ip_address node.ip_address node.hostname u.2
    match c.1 with
    | .error e => (.error e, c.2)
    | .ok _ =>
      if !create_tftp_boot_symlink env (boot_dir_of iw node) (tftp_dir_of iw node) then
        (.ok false, c.2)
      else
        (.ok false, c.2)

/-! ### DeploymentOrchestrator: `Deployment.deploy` (src/deployment/Deployment.py) -/

/-- Per-node preparation loop of `deploy`: the boolean result of each
preparation is bound to an unused variable (`# TODO: Check result`), so
only a raise stops the loop. -/
def prepLoop (iw : ImageWrapper) (env : Env) : List CSLNode → World →
    Except PyErr Unit × World
  | [], w => (.ok (), w)
  | node :: rest, w =>
    let r := prepare_pxe_boot_configuration iw env node w
    match r.1 with
    | .error e => (.error e, r.2)
    | .ok _ => prepLoop iw env rest r.2

/-- Embedding of `Deployment.deploy`: power off, prepare every node, power
on, wait for hosts then for port 22; the results of the two waits are
discarded and the boot-duration bookkeeping has no observable effect. -/
def deploy (run : CommandExec) (iw : ImageWrapper) (env : Env)
    (reachH reachP : Nat → String → Bool) (fuelH fuelP : Nat)
    (nodes : List CSLNode) (w : World) : Except PyErr Bool × World :=
  match switch_comms_sleeves_power run nodes Power.Off with
  | .error e => (.error e, w)
  | .ok false => (.ok false, w)
  | .ok true =>
    let pl := prepLoop iw env nodes w
    match pl.1 with
    | .error e => (.error e, pl.2)
    | .ok _ =>
      match switch_comms_sleeves_power run nodes Power.On with
      | .error e => (.error e, pl.2)
      | .ok false => (.ok false, pl.2)
      | .ok true =>
        match wait_for_hosts reachH fuelH (nodes.map (fun n => n.ip_address)) with
        | .error e => (.error e, pl.2)
        | .ok _ =>
          let _r2 := wait_for_ports reachP fuelP (nodes.map (fun n => n.ip_address))
          (.ok true, pl.2)

/-! ### Lemmas about the fstab root-line search -/

/-- The sentinel search returns `none` exactly when no line matches. -/
theorem pyFindIdx_eq_none_iff (p : String → Bool) :
    ∀ l : List String, (pyFindIdx p l = none ↔ ∀ x ∈ l, p x = false) := by
  intro l
  induction l with
  | nil => simp [pyFindIdx]
  | cons x xs ih =>
    cases hx : p x with
    | true => simp [pyFindIdx, hx]
    | false =>
      simp only [pyFindIdx, hx, Bool.false_eq_true, if_false, List.mem_cons]
      constructor
      · rintro hn y (rfl | hy)
        · exact hx
        · exact ih.mp (Option.map_eq_none.mp hn) y hy
      · intro hall
        exact Option.map_eq_none.mpr (ih.mpr fun y hy => hall y (Or.inr hy))

/-- The sentinel search finds the first matching index. -/
theorem pyFindIdx_first (p : String → Bool) :
    ∀ (l : List String) (i : Nat) (hi : i < l.length),
      p (l.get ⟨i, hi⟩) = true →
      (∀ (j : Nat) (hj : j < i), p (l.get ⟨j, Nat.lt_trans hj hi⟩) = false) →
      pyFindIdx p l = some i := by
  intro l
  induction l with
  | nil => intro i hi; exact absurd hi (by simp)
  | cons x xs ih =>
    intro i hi hp hfirst
    cases i with
    | zero =>
      have hx : p x = true := hp
      simp [pyFindIdx, hx]
    | succ k =>
      have hx : p x = false := hfirst 0 (Nat.succ_pos k)
      have hk : k < xs.length := Nat.lt_of_succ_lt_succ hi
      have hpk : p (xs.get ⟨k, hk⟩) = true := hp
      have hfk : ∀ (j : Nat) (hj : j < k), p (xs.get ⟨j, Nat.lt_trans hj hk⟩) = false := by
        intro j hj
        exact hfirst (j + 1) (Nat.succ_lt_succ hj)
      have hxs := ih k hk hpk hfk
      simp [pyFindIdx, hx, hxs]

/-- Value and bound carried by a successful sentinel search. -/
theorem pyFindIdx_some_spec (p : String → Bool) :
    ∀ (l : List String) (i : Nat), pyFindIdx p l = some i →
      ∃ hi : i < l.length, p (l.get ⟨i, hi⟩) = true := by
  intro l
  induction l with
  | nil => intro i h; exact absurd h (by simp [pyFindIdx])
  | cons x xs ih =>
    intro i h
    cases hx : p x with
    | true =>
      simp only [pyFindIdx, hx, if_true] at h
      injection h with h
      subst h
      exact ⟨by simp, by simpa using hx⟩
    | false =>
      simp only [pyFindIdx, hx, Bool.false_eq_true, if_false] at h
      obtain ⟨k, hk, rfl⟩ := Option.map_eq_some'.mp h
      obtain ⟨hik, hpk⟩ := ih k hk
      exact ⟨Nat.succ_lt_succ hik, by simpa using hpk⟩

/-- After replacing the unique matching line with a non-matching one, no
line matches any more. -/
theorem pyFindIdx_set_none (p : String → Bool) (a : String) :
    ∀ (l : List String) (i : Nat) (hi : i < l.length),
      p (l.get ⟨i, hi⟩) = true → (l.filter p).length ≤ 1 → p a = false →
      pyFindIdx p (l.set i a) = none := by
  intro l
  induction l with
  | nil => intro i hi; exact absurd hi (by simp)
  | cons x xs ih =>
    intro i hi hp hcount ha
    cases i with
    | zero =>
      have hx : p x = true := hp
      have hxs : ∀ y ∈ xs, p y = false := by
        have hlen : (xs.filter p).length = 0 := by
          simp only [List.filter_cons, hx, if_true, List.length_cons] at hcount
          omega
        have hnil : xs.filter p = [] := List.length_eq_zero.mp hlen
        intro y hy
        cases hpy : p y with
        | false => rfl
        | true =>
          have : y ∈ xs.filter p := List.mem_filter.mpr ⟨hy, hpy⟩
          rw [hnil] at this
          exact absurd this (List.not_mem_nil y)
      rw [pyFindIdx_eq_none_iff]
      intro y hy
      rcases List.mem_cons.mp (by simpa using hy) with rfl | hmem
      · exact ha
      · exact hxs y hmem
    | succ k =>
      have hk : k < xs.length := Nat.lt_of_succ_lt_succ hi
      have hpk : p (xs.get ⟨k, hk⟩) = true := hp
      cases hx : p x with
      | true =>
        exfalso
        have hmemf : xs.get ⟨k, hk⟩ ∈ xs.filter p :=
          List.mem_filter.mpr ⟨List.get_mem xs k hk, hpk⟩
        have hpos : 1 ≤ (xs.filter p).length := by
          cases hfil : xs.filter p with
          | nil => rw [hfil] at hmemf; exact absurd hmemf (List.not_mem_nil _)
          | cons a l => simp
        simp only [List.filter_cons, hx, if_true, List.length_cons] at hcount
        omega
      | false =>
        have hc2 : (xs.filter p).length ≤ 1 := by
          simpa [List.filter_cons, hx] using hcount
        have hset := ih k hk hpk hc2 ha
        simp [List.set, pyFindIdx, hx, hset]

/-- Closed form of the sshd per-line transformation: since every membership
test is made against the original line, the last matching table entry
wins. -/
theorem sshdTransformLine_eq (line : String) :
    sshdTransformLine line =
      (if pyContains line "/etc/ssh/ssh_host_rsa_key" = true then
        "HostKey /etc/ssh/ssh_host_rsa_key"
      else if pyContains line "PasswordAuthentication" = true then
        "PasswordAuthentication yes"
      else if pyContains line "PermitRootLogin" = true then
        "PermitRootLogin yes"
      else line) := rfl

/-- The sshd per-line transformation is idempotent: each canonical
replacement line matches exactly the table entry that produced it. -/
theorem sshdTransformLine_idem (line : String) :
    sshdTransformLine (sshdTransformLine line) = sshdTransformLine line := by
  by_cases h3 : pyContains line "/etc/ssh/ssh_host_rsa_key" = true
  · rw [sshdTransformLine_eq line, if_pos h3]
    decide
  · by_cases h2 : pyContains line "PasswordAuthentication" = true
    · rw [sshdTransformLine_eq line, if_neg h3, if_pos h2]
      decide
    · by_cases h1 : pyContains line "PermitRootLogin" = true
      · rw [sshdTransformLine_eq line, if_neg h3, if_neg h2, if_pos h1]
        decide
      · rw [sshdTransformLine_eq line, if_neg h3, if_neg h2, if_neg h1,
          sshdTransformLine_eq line, if_neg h3, if_neg h2, if_neg h1]

/-! ### Claim theorems: BootMonitor (C4, C9, C10) -/

/-- C9: with an empty host list and a positive timeout `wait_for_hosts`
raises `ZeroDivisionError` in its first iteration (the per-host ping
timeout divides by the number of remaining hosts), while `wait_for_ports`
returns true. -/
theorem C9_wait_for_hosts_empty_raises (reach : Nat → String → Bool) (fuel : Nat)
    (hf : 1 ≤ fuel) :
    wait_for_hosts reach fuel [] = .error PyErr.zeroDivision ∧
    (wait_for_ports reach fuel []).1 = true := by
  cases fuel with
  | zero => exact absurd hf (by decide)
  | succ n => exact ⟨rfl, rfl⟩

/-- C9 witness: the divergence at one loop iteration of budget. -/
theorem C9_wait_for_hosts_empty_raises_witness :
    1 ≤ 1 ∧
    (wait_for_hosts (fun _ _ => true) 1 [] = .error PyErr.zeroDivision ∧
      (wait_for_ports (fun _ _ => true) 1 []).1 = true) :=
  ⟨by decide, C9_wait_for_hosts_empty_raises (fun _ _ => true) 1 (by decide)⟩

/-- C4 counterexample: with two reachable hosts, the only loop iteration
probes host `a`, removes it, and the in-place removal shifts host `b` under
the iterator so that `b` is never probed in that iteration — refuting
"probe every remaining host exactly once per loop iteration" (host `b`
remains pending, yet the probe trace of the call contains no probe of
`b`). -/
theorem C4_pass_skips_host_counterexample :
    (wait_for_ports (fun _ _ => true) 1 ["a", "b"]).2.1 = ["b"] ∧
    (wait_for_ports (fun _ _ => true) 1 ["a", "b"]).2.2 = [(0, "a")] ∧
    (0, "b") ∉ (wait_for_ports (fun _ _ => true) 1 ["a", "b"]).2.2 := by
  decide

/-- C4 amended: each loop iteration probes a subsequence of the remaining
hosts (a removal makes the iterator skip the next host, so not necessarily
every one); the pending list only ever loses hosts, a removed host is never
re-added; and for a non-empty duplicate-free host list the call returns
true exactly when the pending list was emptied before the deadline —
identically for `wait_for_hosts`, which behaves as `wait_for_ports` on
every non-empty list. -/
theorem C4_wait_loops_amended (reach : Nat → String → Bool) (fuel : Nat)
    (hosts : List String) (hne : hosts ≠ []) (hnd : hosts.Nodup) :
    (∀ (cond : String → Bool) (l : List String), l.Nodup →
      List.Sublist (pingPass cond l).2 l ∧ List.Sublist (pingPass cond l).1 l) ∧
    List.Sublist (wait_for_ports reach fuel hosts).2.1 hosts ∧
    ((wait_for_ports reach fuel hosts).1 = true ↔
      (wait_for_ports reach fuel hosts).2.1 = []) ∧
    wait_for_hosts reach fuel hosts = .ok (wait_for_ports reach fuel hosts) := by
  refine ⟨?_, ?_, ?_, ?_⟩
  · intro cond l hl
    rw [pingPass_eq_skipPass cond l hl]
    exact ⟨skipPass_probed_sublist cond l, skipPass_kept_sublist cond l⟩
  · exact waitPortsGo_sublist reach fuel 0 hosts hnd
  · exact waitPortsGo_true_iff reach fuel 0 hosts hne
  · exact waitHostsGo_eq_ports reach fuel 0 hosts hne

/-- C4 witness: a run in which one host answers in the first iteration and
the other in the second. -/
theorem C4_wait_loops_amended_witness :
    ((["a", "b"] : List String) ≠ [] ∧ (["a", "b"] : List String).Nodup) ∧
    (List.Sublist (wait_for_ports (fun _ h => h == "a") 2 ["a", "b"]).2.1 ["a", "b"] ∧
      ((wait_for_ports (fun _ h => h == "a") 2 ["a", "b"]).1 = true ↔
        (wait_for_ports (fun _ h => h == "a") 2 ["a", "b"]).2.1 = []) ∧
      wait_for_hosts (fun _ h => h == "a") 2 ["a", "b"] =
        .ok (wait_for_ports (fun _ h => h == "a") 2 ["a", "b"])) :=
  ⟨⟨by decide, by decide⟩,
    (C4_wait_loops_amended (fun _ h => h == "a") 2 ["a", "b"]
      (by decide) (by decide)).2⟩

/-- C10 counterexample: with the duplicated host list `[a, a]`, one
iteration of budget and an always-reachable host, the call returns false
with `a` still in the caller's list although `a` was observed reachable
(probed at iteration 0 with a positive answer) — refuting "the list
contains exactly the hosts that were never observed reachable". -/
theorem C10_duplicate_host_counterexample :
    (wait_for_ports (fun _ _ => true) 1 ["a", "a"]).1 = false ∧
    "a" ∈ (wait_for_ports (fun _ _ => true) 1 ["a", "a"]).2.1 ∧
    (0, "a") ∈ (wait_for_ports (fun _ _ => true) 1 ["a", "a"]).2.2 ∧
    (fun (_ : Nat) (_ : String) => true) 0 "a" = true := by
  decide

/-- C10 amended: for a non-empty, duplicate-free host list the in-place
mutated list finally contains exactly the hosts none of whose performed
probes succeeded, it is empty exactly when the call returned true, and
`wait_for_hosts` returns the same triple as `wait_for_ports`. -/
theorem C10_wait_final_list_characterisation (reach : Nat → String → Bool)
    (fuel : Nat) (hosts : List String) (hne : hosts ≠ []) (hnd : hosts.Nodup) :
    (∀ h : String, h ∈ (wait_for_ports reach fuel hosts).2.1 ↔
      h ∈ hosts ∧ ∀ q ∈ (wait_for_ports reach fuel hosts).2.2,
        q.2 = h → reach q.1 h = false) ∧
    ((wait_for_ports reach fuel hosts).2.1 = [] ↔
      (wait_for_ports reach fuel hosts).1 = true) ∧
    wait_for_hosts reach fuel hosts = .ok (wait_for_ports reach fuel hosts) := by
  refine ⟨?_, ?_, ?_⟩
  · intro h
    exact waitPortsGo_mem reach fuel 0 hosts hnd h
  · exact (waitPortsGo_true_iff reach fuel 0 hosts hne).symm
  · exact waitHostsGo_eq_ports reach fuel 0 hosts hne

/-- C10 witness: the host answering in the first iteration is exactly the
one missing from the final pending list. -/
theorem C10_wait_final_list_characterisation_witness :
    ((["a", "b"] : List String) ≠ [] ∧ (["a", "b"] : List String).Nodup) ∧
    ("a" ∈ (wait_for_ports (fun _ h => h == "b") 1 ["a", "b"]).2.1 ↔
      "a" ∈ (["a", "b"] : List String) ∧
        ∀ q ∈ (wait_for_ports (fun _ h => h == "b") 1 ["a", "b"]).2.2,
          q.2 = "a" → (fun (_ : Nat) (h : String) => h == "b") q.1 "a" = false) ∧
    ((wait_for_ports (fun _ h => h == "b") 1 ["a", "b"]).2.1 = [] ↔
      (wait_for_ports (fun _ h => h == "b") 1 ["a", "b"]).1 = true) :=
  ⟨⟨by decide, by decide⟩,
    (C10_wait_final_list_characterisation (fun _ h => h == "b") 1 ["a", "b"]
      (by decide) (by decide)).1 "a",
    (C10_wait_final_list_characterisation (fun _ h => h == "b") 1 ["a", "b"]
      (by decide) (by decide)).2.1⟩

/-! ### Claim theorems: router (C5, C2) -/

/-- Command oracle whose every command fails with a non-zero exit. -/
def runFail : CommandExec := fun _ => ("failure", 1)

/-- C5 counterexample: when the PoE print command exits non-zero,
`get_poe_ports` returns the ordinary empty list, indistinguishable from a
router with no PoE ports; it does not fail with a distinguishable
command-failure error as the claim states. -/
theorem C5_get_poe_ports_nonzero_counterexample :
    get_poe_ports runFail = .ok [] ∧
    (runFail "interface ethernet poe print without-paging").2 ≠ 0 ∧
    ∀ e : PyErr, get_poe_ports runFail ≠ .error e := by
  refine ⟨rfl, by decide, ?_⟩
  intro e h
  rw [show get_poe_ports runFail = .ok [] from rfl] at h
  exact Except.noConfusion h

/-- C5 amended: on a non-zero exit status of the router query command,
`get_poe_ports` returns the empty list as a normal result (soft failure);
no error value is raised on that path. -/
theorem C5_get_poe_ports_nonzero_returns_empty (run : CommandExec)
    (h : (run "interface ethernet poe print without-paging").2 ≠ 0) :
    get_poe_ports run = .ok [] := by
  unfold get_poe_ports
  simp [h]

/-- C5 witness: the all-failing command oracle. -/
theorem C5_get_poe_ports_nonzero_returns_empty_witness :
    (runFail "interface ethernet poe print without-paging").2 ≠ 0 ∧
    get_poe_ports runFail = .ok [] :=
  ⟨by decide, C5_get_poe_ports_nonzero_returns_empty runFail (by decide)⟩

/-- A node wired to router port 1. -/
def nodeOne : CSLNode :=
  { hostname := "csl1", ip_address := "10.0.0.2", mac_address := "aa:bb:cc:dd:ee:01",
    username := "u", password := "p", port := 22, router_port_link := 1 }

/-- The single PoE port record the router of `runEtherTwo` reports. -/
def portTwo : POEPort :=
  { name := "ether2", state := .Off, voltage := .Auto, priority := 10,
    lldp_enabled := false, cycle_ping_enabled := false }

/-- Command oracle of a router whose port query reports only `ether2`
(powered off) and whose set commands all succeed. -/
def runEtherTwo : CommandExec := fun c =>
  if c = "interface ethernet poe print without-paging" then
    ("0 ether2 off auto 10 no no x", 0)
  else ("", 0)

/-- The success condition asserted by the claim for
`switch_comms_sleeves_power`: every per-port set command succeeds and the
single subsequent query reports, for every targeted port, a state equal to
the requested one. -/
def switchClaimCond (run : CommandExec) (csl_list : List CSLNode) (st : Power) : Prop :=
  (∀ nm ∈ csl_list.map ether_name, set_poe_port_power run nm st = true) ∧
  (∀ nm ∈ csl_list.map ether_name, ∃ ports, get_poe_ports run = .ok ports ∧
    ∃ p ∈ ports, p.name = nm ∧ p.state = st)

/-- C2 counterexample: the set command for `ether1` succeeds but the query
does not report `ether1` at all, so the claimed condition fails — yet the
call returns true, because the verification loop only checks the ports the
query happens to report. -/
theorem C2_switch_power_counterexample :
    switch_comms_sleeves_power runEtherTwo [nodeOne] Power.Off = .ok true ∧
    ¬switchClaimCond runEtherTwo [nodeOne] Power.Off := by
  constructor
  · rfl
  · rintro ⟨_, hrep⟩
    obtain ⟨ports, hget, p, hp, hname, _⟩ := hrep "ether1" (by decide)
    rw [show get_poe_ports runEtherTwo = .ok [portTwo] from rfl] at hget
    injection hget with hports
    rw [← hports] at hp
    rcases List.mem_cons.mp hp with rfl | hnil
    · exact absurd hname (by decide)
    · exact absurd hnil (List.not_mem_nil p)

/-- C2 amended: given that the single query succeeds and returns `ports`,
the call returns true iff every per-port set command succeeds, the query
result is non-empty, and every REPORTED port whose name is targeted is in
the requested state; targeted ports absent from the query result are not
verified. -/
theorem C2_switch_power_ok_true_iff (run : CommandExec) (csl_list : List CSLNode)
    (st : Power) (ports : List POEPort) (hq : get_poe_ports run = .ok ports) :
    (switch_comms_sleeves_power run csl_list st = .ok true ↔
      ((∀ nm ∈ csl_list.map ether_name, set_poe_port_power run nm st = true) ∧
        ports ≠ [] ∧
        ∀ p ∈ ports, p.name ∈ csl_list.map ether_name → p.state = st)) := by
  unfold switch_comms_sleeves_power
  by_cases hall :
      (csl_list.map ether_name).all (fun nm => set_poe_port_power run nm st) = true
  · rw [if_pos hall, hq]
    dsimp only
    cases hpe : ports.isEmpty with
    | true =>
      have : ports = [] := List.isEmpty_iff.mp hpe
      subst this
      simp [List.all_eq_true] at hall
      simp [hall]
    | false =>
      have hne : ports ≠ [] := by
        intro hnil
        rw [hnil] at hpe
        simp at hpe
      rw [if_neg (by simp [hpe])]
      simp only [List.all_eq_true] at hall
      constructor
      · intro h
        have hval := Except.ok.inj h
        refine ⟨hall, hne, ?_⟩
        intro p hp hmem
        have := List.all_eq_true.mp hval p hp
        simp only [Bool.not_eq_true', Bool.and_eq_false_iff] at this
        rcases this with hcon | hstate
        · have hc2 : (csl_list.map ether_name).contains p.name = true :=
            List.elem_eq_true_of_mem hmem
          rw [hc2] at hcon
          exact absurd hcon (by decide)
        · have hbeq : p.state == st := by
            cases hb : (p.state == st) with
            | true => rfl
            | false => rw [hb] at hstate; simp at hstate
          exact beq_iff_eq.mp hbeq
      · rintro ⟨_, _, hver⟩
        have hval : ports.all
            (fun p => !((csl_list.map ether_name).contains p.name && !(p.state == st))) = true := by
          rw [List.all_eq_true]
          intro p hp
          cases hc : (csl_list.map ether_name).contains p.name with
          | false => simp
          | true =>
            have := hver p hp (List.mem_of_elem_eq_true hc)
            simp [this]
        rw [hval]
  · rw [if_neg hall]
    constructor
    · intro h
      exact absurd (Except.ok.inj h) (by decide)
    · rintro ⟨hsets, _, _⟩
      exact absurd (List.all_eq_true.mpr hsets) hall

/-- C2 witness: the `ether2`-only router, one node on port 1. -/
theorem C2_switch_power_ok_true_iff_witness :
    get_poe_ports runEtherTwo = .ok [portTwo] ∧
    (switch_comms_sleeves_power runEtherTwo [nodeOne] Power.Off = .ok true ↔
      ((∀ nm ∈ [nodeOne].map ether_name,
          set_poe_port_power runEtherTwo nm Power.Off = true) ∧
        [portTwo] ≠ [] ∧
        ∀ p ∈ [portTwo], p.name ∈ [nodeOne].map ether_name → p.state = Power.Off)) :=
  ⟨rfl, C2_switch_power_ok_true_iff runEtherTwo [nodeOne] Power.Off [portTwo] rfl⟩

/-! ### Claim theorems: FilesystemConfigurator (C6, C8) -/

/-- C6: if no line of the fstab has `/` as its second whitespace-delimited
field, the rewrite returns false and leaves the whole world — in particular
the file — untouched; if some line matches, the first matching line is
replaced by the NFS boot line, every other line is kept, the file is
written back and the call returns true. -/
theorem C6_modify_fstab_file_spec (boot_dir ip_address fstab_path : String)
    (lines : List String) (w : World) (hf : w.files fstab_path = some lines) :
    ((∀ line ∈ lines, isRootLine line = false) →
      modify_fstab_file boot_dir fstab_path ip_address w = (.ok false, w)) ∧
    (∀ (i : Nat) (hi : i < lines.length),
      isRootLine (lines.get ⟨i, hi⟩) = true →
      (∀ (j : Nat) (hj : j < i), isRootLine (lines.get ⟨j, Nat.lt_trans hj hi⟩) = false) →
      modify_fstab_file boot_dir fstab_path ip_address w =
        (.ok true, write_lines_to_file w fstab_path
          (lines.set i (nfsBootLine ip_address boot_dir)))) := by
  constructor
  · intro hnone
    have hidx : pyFindIdx isRootLine lines = none :=
      (pyFindIdx_eq_none_iff isRootLine lines).mpr hnone
    unfold modify_fstab_file read_file_lines modify_fstab_lines
    rw [hf]
    dsimp only
    cases hemp : lines.isEmpty with
    | true => simp [hemp]
    | false => simp [hemp, hidx]
  · intro i hi hroot hfirst
    have hidx : pyFindIdx isRootLine lines = some i :=
      pyFindIdx_first isRootLine lines i hi hroot hfirst
    have hemp : lines.isEmpty = false := by
      cases lines with
      | nil => exact absurd hi (by simp)
      | cons a l => rfl
    unfold modify_fstab_file read_file_lines modify_fstab_lines
    rw [hf]
    dsimp only
    simp [hemp, hidx]

/-- C6 witness: an fstab whose first line is the root mount. -/
theorem C6_modify_fstab_file_spec_witness :
    ({ held := [], trace := [], files := fun p =>
        if p = "/r/etc/fstab" then some ["UUID=xxxx / ext4 defaults 0 1", "other line"]
        else none : World }.files "/r/etc/fstab" =
      some ["UUID=xxxx / ext4 defaults 0 1", "other line"]) ∧
    isRootLine (["UUID=xxxx / ext4 defaults 0 1", "other line"].get ⟨0, by decide⟩) = true ∧
    modify_fstab_file "/pxe/aabbcc/boot" "/r/etc/fstab" "10.0.0.1"
        { held := [], trace := [], files := fun p =>
          if p = "/r/etc/fstab" then some ["UUID=xxxx / ext4 defaults 0 1", "other line"]
          else none } =
      (.ok true, write_lines_to_file
        { held := [], trace := [], files := fun p =>
          if p = "/r/etc/fstab" then some ["UUID=xxxx / ext4 defaults 0 1", "other line"]
          else none }
        "/r/etc/fstab"
        (["UUID=xxxx / ext4 defaults 0 1", "other line"].set 0
          (nfsBootLine "10.0.0.1" "/pxe/aabbcc/boot"))) :=
  ⟨by simp, by decide,
    (C6_modify_fstab_file_spec "/pxe/aabbcc/boot" "10.0.0.1" "/r/etc/fstab"
      ["UUID=xxxx / ext4 defaults 0 1", "other line"] _ (by simp)).2 0 (by decide)
      (by decide) (fun j hj => absurd hj (by omega))⟩

/-- C8 counterexample: the fstab rewrite is not idempotent on a file with
two root-mount lines — the first application rewrites the first root line,
the second application then rewrites the second one, changing the content
again. -/
theorem C8_fstab_not_idempotent_counterexample :
    (modify_fstab_lines "/b" "1" ((modify_fstab_lines "/b" "1" ["a / x", "b / y"]).2)).2 ≠
      (modify_fstab_lines "/b" "1" ["a / x", "b / y"]).2 := by
  decide

/-- C8 amended: the sshd, cmdline and hostname rewrites are idempotent on
every file content; the fstab rewrite is idempotent provided the content
has at most one root-mount line and the formatted NFS line is itself not a
root-mount line (as with any whitespace-free server address and boot
directory). -/
theorem C8_configurator_idempotent :
    (∀ lines : List String,
      (modify_sshd_lines (modify_sshd_lines lines).2).2 = (modify_sshd_lines lines).2) ∧
    (∀ (root_dir ip_address : String) (lines : List String),
      (modify_cmdline_lines root_dir ip_address
        (modify_cmdline_lines root_dir ip_address lines).2).2 =
        (modify_cmdline_lines root_dir ip_address lines).2) ∧
    (∀ (hostname : String) (lines : List String),
      set_hostname_lines hostname (set_hostname_lines hostname lines) =
        set_hostname_lines hostname lines) ∧
    (∀ (boot_dir ip_address : String) (lines : List String),
      (lines.filter isRootLine).length ≤ 1 →
      isRootLine (nfsBootLine ip_address boot_dir) = false →
      (modify_fstab_lines boot_dir ip_address
        (modify_fstab_lines boot_dir ip_address lines).2).2 =
        (modify_fstab_lines boot_dir ip_address lines).2) := by
  refine ⟨?_, ?_, ?_, ?_⟩
  · intro lines
    cases lines with
    | nil => rfl
    | cons a l =>
      unfold modify_sshd_lines
      simp [List.map_map, Function.comp, sshdTransformLine_idem]
  · intro root_dir ip_address lines
    rfl
  · intro hostname lines
    rfl
  · intro boot_dir ip_address lines hcount hnew
    unfold modify_fstab_lines
    cases hemp : lines.isEmpty with
    | true => simp [hemp]
    | false =>
      cases hidx : pyFindIdx isRootLine lines with
      | none => simp [hemp, hidx]
      | some i =>
        obtain ⟨hi, hroot⟩ := pyFindIdx_some_spec isRootLine lines i hidx
        have hemp2 : (lines.set i (nfsBootLine ip_address boot_dir)).isEmpty = false := by
          cases lines with
          | nil => exact absurd hi (by simp)
          | cons a l => cases i <;> rfl
        have hidx2 : pyFindIdx isRootLine
            (lines.set i (nfsBootLine ip_address boot_dir)) = none :=
          pyFindIdx_set_none isRootLine (nfsBootLine ip_address boot_dir)
            lines i hi hroot hcount hnew
        simp [hemp, hemp2, hidx, hidx2]

/-- C8 witness: one root-mount line, the standard arguments, and a config
line for each of the other rewrites. -/
theorem C8_configurator_idempotent_witness :
    (((["UUID=x / ext4 d 0 1", "other"] : List String).filter isRootLine).length ≤ 1 ∧
      isRootLine (nfsBootLine "10.0.0.1" "/pxe/m/boot") = false) ∧
    (modify_fstab_lines "/pxe/m/boot" "10.0.0.1"
        ((modify_fstab_lines "/pxe/m/boot" "10.0.0.1" ["UUID=x / ext4 d 0 1", "other"]).2)).2 =
      (modify_fstab_lines "/pxe/m/boot" "10.0.0.1" ["UUID=x / ext4 d 0 1", "other"]).2 ∧
    (modify_sshd_lines (modify_sshd_lines ["PasswordAuthentication no"]).2).2 =
      (modify_sshd_lines ["PasswordAuthentication no"]).2 :=
  ⟨⟨by decide, by decide⟩,
    C8_configurator_idempotent.2.2.2 "/pxe/m/boot" "10.0.0.1"
      ["UUID=x / ext4 d 0 1", "other"] (by decide) (by decide),
    C8_configurator_idempotent.1 ["PasswordAuthentication no"]⟩

/-! ### Claim theorems: prepare and deploy (C3, C7) -/

/-- Environment in which every external command of the unpack / prepare
path succeeds. -/
def envAllOk : Env :=
  { imgExists := true, serviceStop := ("", 0), serviceStart := ("", 0),
    rmrfCmd := fun _ => ("", 0), losetupShow := fun _ => ("/dev/loop7", 0),
    losetupDetach := fun _ => ("", 0), mountRo := fun _ _ => ("", 0),
    umountCmd := fun _ => ("", 0), cpCmd := fun _ _ => ("", 0),
    lnCmd := fun _ _ => ("", 0) }

/-- Demo wrapper configuration. -/
def iwDemo : ImageWrapper :=
  { pxe_fs_root := "/pxe", img_path := "/img/sd.img", server_ip_address := "10.0.0.1" }

/-- Demo starting world: no resource held, every file exists with one
line. -/
def wDemo : World := { held := [], trace := [], files := fun _ => some ["x"] }

/-- C3: when the image unpacking reports success, the filesystem
configuration raises nothing and the TFTP symlink command succeeds,
`prepare_pxe_boot_configuration` still returns false — the literal final
`return False` of the method fixes the success path to failure. -/
theorem C3_prepare_returns_false_on_success (iw : ImageWrapper) (env : Env)
    (node : CSLNode) (w : World)
    (h1 : (unpack_image env iw (boot_dir_of iw node) (root_dir_of iw node) w).1 = .ok true)
    (h2 : (configure_csl_filesystem (boot_dir_of iw node) (root_dir_of iw node)
      iw.server_ip_address node.ip_address node.hostname
      (unpack_image env iw (boot_dir_of iw node) (root_dir_of iw node) w).2).1 = .ok ())
    (h3 : create_tftp_boot_symlink env (boot_dir_of iw node) (tftp_dir_of iw node) = true) :
    (prepare_pxe_boot_configuration iw env node w).1 = .ok false := by
  unfold prepare_pxe_boot_configuration
  dsimp only
  rw [h1, h2, h3]
  rfl

/-- C3 witness: the all-commands-succeed environment on the demo node. -/
theorem C3_prepare_returns_false_on_success_witness :
    (unpack_image envAllOk iwDemo (boot_dir_of iwDemo nodeOne)
      (root_dir_of iwDemo nodeOne) wDemo).1 = .ok true ∧
    create_tftp_boot_symlink envAllOk (boot_dir_of iwDemo nodeOne)
      (tftp_dir_of iwDemo nodeOne) = true ∧
    (prepare_pxe_boot_configuration iwDemo envAllOk nodeOne wDemo).1 = .ok false :=
  ⟨rfl, rfl,
    C3_prepare_returns_false_on_success iwDemo envAllOk nodeOne wDemo rfl rfl rfl⟩

/-- C7 counterexample: on the empty batch both power-switch calls succeed
(the router of `runEtherTwo` reports a non-empty port list with no targeted
port), yet `deploy` does not return true — it propagates the
`ZeroDivisionError` that `wait_for_hosts` raises on the empty address
list. -/
theorem C7_deploy_empty_batch_counterexample :
    switch_comms_sleeves_power runEtherTwo [] Power.Off = .ok true ∧
    switch_comms_sleeves_power runEtherTwo [] Power.On = .ok true ∧
    (deploy runEtherTwo iwDemo envAllOk (fun _ _ => true) (fun _ _ => true) 1 1
      [] wDemo).1 = .error PyErr.zeroDivision :=
  ⟨rfl, rfl, rfl⟩

/-- C7 amended: for a NON-EMPTY batch whose per-node preparation raises no
exception, `deploy` returns true exactly when both power-switch calls (off,
then on) return true; the boolean results of the preparations and of the
two boot-wait calls never influence the return value. -/
theorem C7_deploy_ok_true_iff (run : CommandExec) (iw : ImageWrapper) (env : Env)
    (reachH reachP : Nat → String → Bool) (fuelH fuelP : Nat)
    (nodes : List CSLNode) (w : World)
    (hne : nodes ≠ [])
    (hprep : (prepLoop iw env nodes w).1 = .ok ()) :
    ((deploy run iw env reachH reachP fuelH fuelP nodes w).1 = .ok true ↔
      (switch_comms_sleeves_power run nodes Power.Off = .ok true ∧
        switch_comms_sleeves_power run nodes Power.On = .ok true)) := by
  have hips : nodes.map (fun n => n.ip_address) ≠ [] := by
    cases nodes with
    | nil => exact absurd rfl hne
    | cons a l => simp
  unfold deploy
  cases hoff : switch_comms_sleeves_power run nodes Power.Off with
  | error e => simp [hoff]
  | ok boff =>
    cases boff with
    | false => simp [hoff]
    | true =>
      dsimp only
      rw [hprep]
      cases hon : switch_comms_sleeves_power run nodes Power.On with
      | error e => simp [hon]
      | ok bon =>
        cases bon with
        | false => simp [hon]
        | true =>
          rw [show wait_for_hosts reachH fuelH (nodes.map (fun n => n.ip_address)) =
              .ok (wait_for_ports reachH fuelH (nodes.map (fun n => n.ip_address))) from
            waitHostsGo_eq_ports reachH fuelH 0 _ hips]
          simp

/-- C7 witness: a one-node batch in the all-commands-succeed world. -/
theorem C7_deploy_ok_true_iff_witness :
    (([nodeOne] : List CSLNode) ≠ [] ∧
      (prepLoop iwDemo envAllOk [nodeOne] wDemo).1 = .ok ()) ∧
    ((deploy runEtherTwo iwDemo envAllOk (fun _ _ => true) (fun _ _ => true) 1 1
        [nodeOne] wDemo).1 = .ok true ↔
      (switch_comms_sleeves_power runEtherTwo [nodeOne] Power.Off = .ok true ∧
        switch_comms_sleeves_power runEtherTwo [nodeOne] Power.On = .ok true)) :=
  ⟨⟨by decide, rfl⟩,
    C7_deploy_ok_true_iff runEtherTwo iwDemo envAllOk (fun _ _ => true)
      (fun _ _ => true) 1 1 [nodeOne] wDemo (by decide) rfl⟩

/-! ### Claim theorems: unpack_image resource discipline (C1) -/

/-- A trace segment that acquires and releases in matched, well-nested
fashion: running it on any stack returns the stack unchanged. -/
def NeutralTrace (d : List Event) : Prop :=
  ∀ acc : List Res, bracketRun acc d = some acc

/-- The bracket interpreter distributes over trace concatenation. -/
theorem bracketRun_append :
    ∀ (t1 t2 : List Event) (stack : List Res),
      bracketRun stack (t1 ++ t2) =
        match bracketRun stack t1 with
        | none => none
        | some s => bracketRun s t2 := by
  intro t1
  induction t1 with
  | nil => intro t2 stack; rfl
  | cons e es ih =>
    intro t2 stack
    cases e with
    | acq r => simpa [bracketRun] using ih t2 (r :: stack)
    | rel r =>
      cases stack with
      | nil => simp [bracketRun]
      | cons s rest =>
        by_cases hrs : r = s
        · simpa [bracketRun, hrs] using ih t2 rest
        · simp [bracketRun, hrs]

/-- Concatenating neutral segments is neutral. -/
theorem NeutralTrace.append {d1 d2 : List Event}
    (h1 : NeutralTrace d1) (h2 : NeutralTrace d2) : NeutralTrace (d1 ++ d2) := by
  intro acc
  rw [bracketRun_append, h1 acc]
  exact h2 acc

/-- A mount/copy/unmount block leaves the held-resource stack unchanged and
appends a neutral, well-bracketed segment to the trace (as long as the
unmount command succeeds). -/
theorem mount_and_copy_clean (env : Env) (device target : String) (w : World)
    (hum : ∀ s, (env.umountCmd s).2 = 0) :
    (mount_and_copy env device target w).2.held = w.held ∧
    ∃ d, (mount_and_copy env device target w).2.trace = w.trace ++ d ∧
      NeutralTrace d := by
  by_cases hmo : (env.mountRo device tmpDirName).2 = 0
  · have hexit : (env.umountCmd tmpDirName).2 = 0 := hum tmpDirName
    refine ⟨?_, [Event.acq (Res.mnt tmpDirName), Event.rel (Res.mnt tmpDirName)], ?_, ?_⟩
    · simp [mount_and_copy, MountContext_enter, MountContext_exit, opAcquire,
        opRelease, hmo, hexit]
    · simp [mount_and_copy, MountContext_enter, MountContext_exit, opAcquire,
        opRelease, hmo, hexit]
    · intro acc
      simp [bracketRun]
  · refine ⟨?_, [], ?_, ?_⟩
    · simp [mount_and_copy, MountContext_enter, hmo]
    · simp [mount_and_copy, MountContext_enter, hmo]
    · intro acc
      rfl

/-- Wrapping a neutral segment in a matching acquire/release pair stays
neutral. -/
theorem NeutralTrace.wrap (r : Res) {d : List Event} (hd : NeutralTrace d) :
    NeutralTrace (Event.acq r :: (d ++ [Event.rel r])) := by
  intro acc
  simp only [bracketRun]
  rw [bracketRun_append, hd (r :: acc)]
  simp [bracketRun]

/-- The two partition blocks of `unpack_image` leave the held stack
unchanged and append a neutral trace segment. -/
theorem loop_body_clean (env : Env) (loop boot_dir root_dir : String) (w : World)
    (hum : ∀ s, (env.umountCmd s).2 = 0) :
    (loop_body env loop boot_dir root_dir w).2.held = w.held ∧
    ∃ d, (loop_body env loop boot_dir root_dir w).2.trace = w.trace ++ d ∧
      NeutralTrace d := by
  obtain ⟨hh1, d1, ht1, hn1⟩ := mount_and_copy_clean env (loop ++ "p1") boot_dir w hum
  unfold loop_body
  dsimp only
  cases hr1 : (mount_and_copy env (loop ++ "p1") boot_dir w).1 with
  | error e => exact ⟨hh1, d1, ht1, hn1⟩
  | ok ob =>
    cases ob with
    | some b => exact ⟨hh1, d1, ht1, hn1⟩
    | none =>
      obtain ⟨hh2, d2, ht2, hn2⟩ := mount_and_copy_clean env (loop ++ "p2") root_dir
        (mount_and_copy env (loop ++ "p1") boot_dir w).2 hum
      refine ⟨?_, d1 ++ d2, ?_, hn1.append hn2⟩
      · rw [hh2, hh1]
      · rw [ht2, ht1, List.append_assoc]

/-- The body of the NFS-stop scope of `unpack_image` (tree removal, loop
attach, both partition copies, loop detach) leaves the held stack unchanged
and appends a neutral trace segment, for any behaviour of the fallible
commands, as long as unmount and detach succeed and the `losetup` output is
either empty or contains a device name. -/
theorem unpack_body_clean (env : Env) (iw : ImageWrapper)
    (boot_dir root_dir : String) (w : World)
    (hum : ∀ s, (env.umountCmd s).2 = 0)
    (hdet : ∀ s, (env.losetupDetach s).2 = 0)
    (hws : (env.losetupShow iw.img_path).1 = "" ∨
      pyWords (env.losetupShow iw.img_path).1 ≠ []) :
    (unpack_body env iw boot_dir root_dir w).2.held = w.held ∧
    ∃ d, (unpack_body env iw boot_dir root_dir w).2.trace = w.trace ++ d ∧
      NeutralTrace d := by
  unfold unpack_body
  by_cases hrm : (env.rmrfCmd (pyParent boot_dir)).2 = 0
  · rw [if_neg (fun hn => hn hrm)]
    by_cases hout : (env.losetupShow iw.img_path).1 = ""
    · have henter : LoopContext_enter env iw.img_path w =
          (.error (.runtimeError ("Failed to create loop devices for " ++ iw.img_path)), w) := by
        simp [LoopContext_enter, hout]
      rw [henter]
      exact ⟨rfl, [], by simp, fun acc => rfl⟩
    · have hwne : pyWords (env.losetupShow iw.img_path).1 ≠ [] := by
        rcases hws with h | h
        · exact absurd h hout
        · exact h
      obtain ⟨name, rest, hwords⟩ := List.exists_cons_of_ne_nil hwne
      have henter : LoopContext_enter env iw.img_path w =
          (.ok name, opAcquire (Res.loopdev name) w) := by
        simp [LoopContext_enter, hout, hwords]
      rw [henter]
      dsimp only
      obtain ⟨hih, din, hit, hin⟩ :=
        loop_body_clean env name boot_dir root_dir (opAcquire (Res.loopdev name) w) hum
      have hexit : LoopContext_exit env name
          (loop_body env name boot_dir root_dir (opAcquire (Res.loopdev name) w)).2 =
          (.ok (), opRelease (Res.loopdev name)
            (loop_body env name boot_dir root_dir (opAcquire (Res.loopdev name) w)).2) := by
        simp [LoopContext_exit, hdet name]
      rw [hexit]
      dsimp only
      constructor
      · show ((loop_body env name boot_dir root_dir
            (opAcquire (Res.loopdev name) w)).2.held).erase (Res.loopdev name) = w.held
        rw [hih]
        show ((Res.loopdev name :: w.held).erase (Res.loopdev name)) = w.held
        exact List.erase_cons_head _ _
      · refine ⟨Event.acq (Res.loopdev name) :: (din ++ [Event.rel (Res.loopdev name)]),
          ?_, hin.wrap (Res.loopdev name)⟩
        show (loop_body env name boot_dir root_dir
            (opAcquire (Res.loopdev name) w)).2.trace ++ [Event.rel (Res.loopdev name)] =
          w.trace ++ (Event.acq (Res.loopdev name) :: (din ++ [Event.rel (Res.loopdev name)]))
        rw [hit]
        show ((opAcquire (Res.loopdev name) w).trace ++ din) ++ [Event.rel (Res.loopdev name)] = _
        show ((w.trace ++ [Event.acq (Res.loopdev name)]) ++ din) ++
            [Event.rel (Res.loopdev name)] = _
        simp
  · rw [if_pos hrm]
    exact ⟨rfl, [], by simp, fun acc => rfl⟩

/-- C1: invoked on an existing image from a state holding no resource, and
assuming the release commands (`umount`, `losetup -d`, NFS restart) succeed
and `losetup` produces either no output or a device name, `unpack_image`
ends — on every path: success, early `return False`, or a propagated
exception — with no loop device attached, no partition mounted and the NFS
service running (no resource left held), and its event trace is
well-bracketed: every release matches the most recently acquired live
resource, so releases happen in reverse order of acquisition. -/
theorem C1_unpack_image_releases_everything (env : Env) (iw : ImageWrapper)
    (boot_dir root_dir : String) (w : World)
    (hheld : w.held = []) (htrace : w.trace = [])
    (himg : env.imgExists = true)
    (hum : ∀ s, (env.umountCmd s).2 = 0)
    (hdet : ∀ s, (env.losetupDetach s).2 = 0)
    (hstart : env.serviceStart.2 = 0)
    (hws : (env.losetupShow iw.img_path).1 = "" ∨
      pyWords (env.losetupShow iw.img_path).1 ≠ []) :
    (unpack_image env iw boot_dir root_dir w).2.held = [] ∧
    bracketRun [] (unpack_image env iw boot_dir root_dir w).2.trace = some [] := by
  unfold unpack_image
  rw [himg, if_neg (by simp)]
  dsimp only
  by_cases hstop : env.serviceStop.2 = 0
  · have hen : NFSContext_enter env w = (.ok (), opAcquire Res.nfs w) := by
      simp [NFSContext_enter, hstop]
    rw [hen]
    dsimp only
    obtain ⟨hbh, db, hbt, hbn⟩ :=
      unpack_body_clean env iw boot_dir root_dir (opAcquire Res.nfs w) hum hdet hws
    have hex : NFSContext_exit env
        (unpack_body env iw boot_dir root_dir (opAcquire Res.nfs w)).2 =
        (.ok (), opRelease Res.nfs
          (unpack_body env iw boot_dir root_dir (opAcquire Res.nfs w)).2) := by
      simp [NFSContext_exit, hstart]
    rw [hex]
    dsimp only
    have hheld2 : (opRelease Res.nfs
        (unpack_body env iw boot_dir root_dir (opAcquire Res.nfs w)).2).held = [] := by
      show ((unpack_body env iw boot_dir root_dir (opAcquire Res.nfs w)).2.held).erase
        Res.nfs = []
      rw [hbh]
      show ((Res.nfs :: w.held).erase Res.nfs) = []
      rw [List.erase_cons_head, hheld]
    have htr2 : (opRelease Res.nfs
        (unpack_body env iw boot_dir root_dir (opAcquire Res.nfs w)).2).trace =
        Event.acq Res.nfs :: (db ++ [Event.rel Res.nfs]) := by
      show (unpack_body env iw boot_dir root_dir (opAcquire Res.nfs w)).2.trace ++
        [Event.rel Res.nfs] = _
      rw [hbt]
      show ((opAcquire Res.nfs w).trace ++ db) ++ [Event.rel Res.nfs] = _
      show ((w.trace ++ [Event.acq Res.nfs]) ++ db) ++ [Event.rel Res.nfs] = _
      rw [htrace]
      simp
    cases hb : (unpack_body env iw boot_dir root_dir (opAcquire Res.nfs w)).1 with
    | error e =>
      dsimp only
      exact ⟨hheld2, by rw [htr2]; exact hbn.wrap Res.nfs []⟩
    | ok ob =>
      cases ob with
      | none =>
        dsimp only
        exact ⟨hheld2, by rw [htr2]; exact hbn.wrap Res.nfs []⟩
      | some b =>
        dsimp only
        exact ⟨hheld2, by rw [htr2]; exact hbn.wrap Res.nfs []⟩
  · have hen : NFSContext_enter env w =
        (.error (.runtimeError "Failed to stop nfs-kernel-server service"), w) := by
      simp [NFSContext_enter, hstop]
    rw [hen]
    dsimp only
    rw [htrace]
    exact ⟨hheld, rfl⟩

/-- C1 witness: the all-commands-succeed environment on the demo paths. -/
theorem C1_unpack_image_releases_everything_witness :
    (wDemo.held = [] ∧ wDemo.trace = [] ∧ envAllOk.imgExists = true) ∧
    (unpack_image envAllOk iwDemo "/pxe/m/boot" "/pxe/m/rootfs" wDemo).2.held = [] ∧
    bracketRun []
      (unpack_image envAllOk iwDemo "/pxe/m/boot" "/pxe/m/rootfs" wDemo).2.trace =
      some [] :=
  ⟨⟨rfl, rfl, rfl⟩,
    C1_unpack_image_releases_everything envAllOk iwDemo "/pxe/m/boot" "/pxe/m/rootfs"
      wDemo rfl rfl rfl (fun _ => rfl) (fun _ => rfl) rfl
      (Or.inr (by decide))⟩
